import Mathlib

/-!
# demo-microservice: the handlers of `server.js`

A shallow embedding of the route handlers of `src/server.js` and of the way they are
registered on the Express application, followed by theorems about the payloads they send.

Conventions of the embedding.

* A JSON payload (the argument of `res.json`) is a value of `Json`; an object keeps its
  fields in source order.
* `process.env` and `req.headers` are JavaScript objects whose properties are strings; they
  are association lists here, a missing property (`undefined`) is `none`.
* `new Date().toISOString()` is an input of a handler: the parameter `now`.
* `Date.now()` is a stream of readings `clock : Nat → Int`, each a time value: an integer
  that a double holds exactly.
* A number computed on line 127 is a `JSNumber`: `NaN`, an infinity, or a double that holds
  an integer. `parseInt` rounds to the nearest double (ties to even), subtraction rounds
  likewise, and the template literal of line 137 prints as `Number::toString` does.
* The middleware and the router are those of Express 4 with its defaults; a request is
  answered by `respond`.
-/

namespace DemoMicroservice

/-! ## JSON payloads -/

/-- JSON values, as passed to `res.json`. -/
inductive Json where
  | str (s : String)
  | num (n : Int)
  | bool (b : Bool)
  | arr (items : List Json)
  | obj (fields : List (String × Json))

namespace Json

/-- Field `k` of an object (`none` for a missing field and for a non-object). -/
def get? : Json → String → Option Json
  | obj fields, k => fields.lookup k
  | _, _ => none

/-- Field `k` when it holds a string. -/
def getStr? (j : Json) (k : String) : Option String :=
  match j.get? k with
  | some (str s) => some s
  | _ => none

/-- Field `k` when it holds a boolean. -/
def getBool? (j : Json) (k : String) : Option Bool :=
  match j.get? k with
  | some (bool b) => some b
  | _ => none

/-- Field `k` when it holds an array of strings only. -/
def getStrs? (j : Json) (k : String) : Option (List String) :=
  match j.get? k with
  | some (arr items) =>
      items.foldr (fun x acc =>
        match x, acc with
        | str s, some l => some (s :: l)
        | _, _ => none) (some [])
  | _ => none

/-- Whether the object has a field `k`. -/
def hasField (j : Json) (k : String) : Bool :=
  (j.get? k).isSome

/-- Path access `j[k₁][k₂]` for a string leaf. -/
def getStrIn? (j : Json) (k₁ k₂ : String) : Option String :=
  match j.get? k₁ with
  | some inner => inner.getStr? k₂
  | none => none

/-- Path access `j[k₁][k₂]` for a boolean leaf. -/
def getBoolIn? (j : Json) (k₁ k₂ : String) : Option Bool :=
  match j.get? k₁ with
  | some inner => inner.getBool? k₂
  | none => none

end Json

/-! ## Environment and configuration (`server.js` lines 7-10) -/

/-- A JavaScript object with string properties: `process.env`, `req.headers`. -/
abbrev StrMap := List (String × String)

/-- Property read `o[k]`: `none` is `undefined`. -/
def StrMap.read (o : StrMap) (k : String) : Option String :=
  o.lookup k

/-- JavaScript truthiness of a value that is `undefined` or a string. -/
def truthy : Option String → Bool
  | none => false
  | some s => s != ""

/-- The expression `x || d` for `x` either `undefined` or a string and `d` a string. -/
def orDefault (x : Option String) (d : String) : String :=
  match x with
  | some s => if s != "" then s else d
  | none => d

/-- The comparison `x === lit` for `x` either `undefined` or a string and `lit` a string. -/
def strictEq (x : Option String) (lit : String) : Bool :=
  match x with
  | some s => s == lit
  | none => false

/-- The three constants computed once at start-up. -/
structure Config where
  version : String
  experimentEnabled : Bool
  podName : String

/-- The constant `APP_VERSION`, line 8. -/
def APP_VERSION (env : StrMap) : String :=
  orDefault (env.read "APP_VERSION") "stable"

/-- The constant `EXPERIMENT_ENABLED`, line 9. -/
def EXPERIMENT_ENABLED (env : StrMap) : Bool :=
  strictEq (env.read "EXPERIMENT_ENABLED") "true"

/-- The constant `POD_NAME`, line 10. -/
def POD_NAME (env : StrMap) : String :=
  orDefault (env.read "HOSTNAME") "unknown"

/-- The configuration a process started in environment `env` runs with. -/
def loadConfig (env : StrMap) : Config :=
  ⟨APP_VERSION env, EXPERIMENT_ENABLED env, POD_NAME env⟩

/-! ## Handlers -/

/-- The header both experiment endpoints read. -/
def experimentHeaderName : String := "aws-cf-cd-super-svp-9f8b7a6d"

/-- The literal both experiment endpoints compare the header with. -/
def experimentToken : String := "123e4567-e89b-12d3-a456-42661417400"

/-- Handler of `GET /health`, lines 22-30. -/
def health (cfg : Config) (now : String) : Json :=
  .obj [("status", .str "healthy"),
        ("version", .str cfg.version),
        ("pod", .str cfg.podName),
        ("timestamp", .str now),
        ("experimentEnabled", .bool cfg.experimentEnabled)]

/-- Handler of `GET /liveness`, lines 32-34. -/
def liveness (cfg : Config) : Json :=
  .obj [("status", .str "alive"), ("version", .str cfg.version)]

/-- Handler of `GET /readiness`, lines 36-38. -/
def readiness (cfg : Config) : Json :=
  .obj [("status", .str "ready"), ("version", .str cfg.version)]

/-- Handler of `GET /api/v1/experiment/version`, lines 41-58. -/
def experimentVersion (cfg : Config) (now : String) (headers : StrMap) : Json :=
  let experimentHeader := headers.read experimentHeaderName
  let isExperimentalTraffic := strictEq experimentHeader experimentToken
  .obj [("service", .str "demo-microservice"),
        ("version", .str cfg.version),
        ("pod", .str cfg.podName),
        ("timestamp", .str now),
        ("experimentEnabled", .bool cfg.experimentEnabled),
        ("experimentHeaderPresent", .bool (truthy experimentHeader)),
        ("isExperimentalTraffic", .bool isExperimentalTraffic),
        ("headers", .obj [
          ("x-experiment-version", .str (if cfg.experimentEnabled then "true" else "false")),
          ("x-pod-type", .str (if cfg.experimentEnabled then "experimental" else "stable"))])]

/-- Handler of `POST /api/v1/experiment/process`, lines 61-97. -/
def experimentProcess (cfg : Config) (now : String) (headers : StrMap) : Json :=
  let experimentHeader := headers.read experimentHeaderName
  let isExperimentalTraffic := strictEq experimentHeader experimentToken
  if cfg.experimentEnabled && isExperimentalTraffic then
    .obj [("result", .str "processed"),
          ("version", .str cfg.version),
          ("pod", .str cfg.podName),
          ("processingMethod", .str "ENHANCED_ALGORITHM"),
          ("features", .obj [
            ("advancedValidation", .bool true),
            ("realTimeProcessing", .bool true),
            ("enhancedSecurity", .bool true)]),
          ("responseTime", .str "85ms"),
          ("timestamp", .str now)]
  else
    .obj [("result", .str "processed"),
          ("version", .str cfg.version),
          ("pod", .str cfg.podName),
          ("processingMethod", .str "STANDARD_ALGORITHM"),
          ("features", .obj [
            ("advancedValidation", .bool false),
            ("realTimeProcessing", .bool false),
            ("enhancedSecurity", .bool false)]),
          ("responseTime", .str "120ms"),
          ("timestamp", .str now)]

/-- Handler of `GET /api/v1/experiment/metrics`, lines 100-123. -/
def experimentMetrics (cfg : Config) (now : String) : Json :=
  .obj [("service", .str "demo-microservice"),
        ("version", .str cfg.version),
        ("pod", .str cfg.podName),
        ("timestamp", .str now),
        ("experimentEnabled", .bool cfg.experimentEnabled),
        ("metrics",
          if cfg.experimentEnabled then
            .obj [("responseTime", .str "85ms"),
                  ("memoryUsage", .str "78MB"),
                  ("cpuUsage", .str "12%"),
                  ("requestsPerSecond", .num 145),
                  ("errorRate", .str "0.2%")]
          else
            .obj [("responseTime", .str "120ms"),
                  ("memoryUsage", .str "65MB"),
                  ("cpuUsage", .str "8%"),
                  ("requestsPerSecond", .num 120),
                  ("errorRate", .str "0.5%")])]

/-- Handler of the catch-all `app.get('*')`, lines 144-157. -/
def fallback (cfg : Config) : Json :=
  .obj [("message", .str "Demo Microservice"),
        ("version", .str cfg.version),
        ("pod", .str cfg.podName),
        ("availableEndpoints", .arr [
          .str "GET /health",
          .str "GET /api/v1/experiment/version",
          .str "POST /api/v1/experiment/process",
          .str "GET /api/v1/experiment/metrics",
          .str "GET /api/v1/load/:duration"])]

/-! ## JavaScript numbers -/

/-- The numbers line 127 can produce: `NaN`, the two infinities, and the doubles that hold an
integer (`-0` is `int 0`: both zeros are falsy and are never printed). -/
inductive JSNumber where
  | nan
  | posInf
  | negInf
  | int (n : Int)
  deriving DecidableEq, Repr

/-- Number of binary digits of `m` (the fuel is any bound on it, `m` itself will do). -/
def bitLength : Nat → Nat → Nat
  | 0, _ => 0
  | fuel + 1, m => if m = 0 then 0 else bitLength fuel (m / 2) + 1

/-- The double nearest to the natural number `m` (round to nearest, ties to even), which is
an integer again; `none` when the rounding overflows to `Infinity`. -/
def roundToDouble (m : Nat) : Option Nat :=
  if m < 2 ^ 53 then some m
  else
    let e := bitLength m m - 53
    let q := m / 2 ^ e
    let r := m % 2 ^ e
    let half := 2 ^ (e - 1)
    let q' := if half < r ∨ (r = half ∧ q % 2 = 1) then q + 1 else q
    if 2 ^ 1024 ≤ q' * 2 ^ e then none else some (q' * 2 ^ e)

namespace JSNumber

/-- The double nearest to the integer `z`. -/
def ofInt (z : Int) : JSNumber :=
  match roundToDouble z.natAbs with
  | some m => .int (if z < 0 then -(m : Int) else (m : Int))
  | none => if z < 0 then .negInf else .posInf

/-- The comparison `a < b`. -/
def lt : JSNumber → JSNumber → Bool
  | .int a, .int b => decide (a < b)
  | .int _, .posInf => true
  | .negInf, .int _ => true
  | .negInf, .posInf => true
  | _, _ => false

/-- The comparison `a <= b`. -/
def le : JSNumber → JSNumber → Bool
  | .nan, _ => false
  | _, .nan => false
  | a, b => !(lt b a)

end JSNumber

/-- The subtraction `a - b` of two doubles that hold the integers `a` and `b`. -/
def jsSub (a b : Int) : JSNumber :=
  JSNumber.ofInt (a - b)

/-- Number of decimal digits of `m`. -/
def decimalDigits (m : Nat) : Nat :=
  (toString m).length

/-- The decimal with `k` significant digits that rounds to the double `v`, if there is one:
the nearer of the two multiples of `10 ^ (n - k)` around `v`, the even one on a tie. -/
def shortestCandidate (v k : Nat) : Option Nat :=
  let P := 10 ^ (decimalDigits v - k)
  let lo := v / P * P
  let hi := lo + P
  let okLo := roundToDouble lo == some v
  let okHi := roundToDouble hi == some v
  if okLo && okHi then
    if v - lo < hi - v then some lo
    else if hi - v < v - lo then some hi
    else if (lo / P) % 2 = 0 then some lo else some hi
  else if okLo then some lo
  else if okHi then some hi
  else none

/-- The decimal with the fewest significant digits that rounds to the double `v`
(`Number::toString`, the choice of `n`, `k` and `s`). -/
def shortestDecimal (v : Nat) : Nat :=
  ((List.range 17).findSome? (fun i => shortestCandidate v (i + 1))).getD v

/-- The string of a double holding the natural number `v`: plain digits up to 21 of them,
exponent notation beyond. -/
def natToJSString (v : Nat) : String :=
  let digits := (toString (shortestDecimal v)).data
  if digits.length ≤ 21 then String.mk digits
  else
    let sig := (digits.reverse.dropWhile (fun c => c == '0')).reverse
    let e := toString (digits.length - 1)
    match sig with
    | [] => "0"
    | [d] => String.mk [d] ++ "e+" ++ e
    | d :: rest => String.mk (d :: '.' :: rest) ++ "e+" ++ e

/-- The string a template literal gives for a number (`Number::toString`). -/
def JSNumber.toJSString : JSNumber → String
  | .nan => "NaN"
  | .posInf => "Infinity"
  | .negInf => "-Infinity"
  | .int n => if n < 0 then "-" ++ natToJSString n.natAbs else natToJSString n.natAbs

/-! ## The load endpoint (lines 126-141) -/

/-- White space and line terminators skipped by `parseInt` (ECMAScript `StrWhiteSpaceChar`). -/
def isStrWhiteSpace (c : Char) : Bool :=
  let n := c.toNat
  n == 0x9 || n == 0xA || n == 0xB || n == 0xC || n == 0xD || n == 0x20 || n == 0xA0 ||
  n == 0x1680 || (0x2000 ≤ n && n ≤ 0x200A) || n == 0x2028 || n == 0x2029 ||
  n == 0x202F || n == 0x205F || n == 0x3000 || n == 0xFEFF

/-- Value of `c` as a digit of radix `R`, if it is one. -/
def radixDigit (R : Nat) (c : Char) : Option Nat :=
  let n := c.toNat
  let v : Option Nat :=
    if 48 ≤ n ∧ n ≤ 57 then some (n - 48)
    else if 97 ≤ n ∧ n ≤ 122 then some (n - 97 + 10)
    else if 65 ≤ n ∧ n ≤ 90 then some (n - 65 + 10)
    else none
  v.filter (fun d => d < R)

/-- The longest prefix of radix-`R` digits, as digit values. -/
def takeDigits (R : Nat) : List Char → List Nat
  | [] => []
  | c :: cs =>
    match radixDigit R c with
    | some d => d :: takeDigits R cs
    | none => []

/-- ECMAScript `parseInt(s)` with no radix argument: the double nearest to the integer the
longest digit prefix denotes, `NaN` when there is no digit. -/
def parseInt (s : String) : JSNumber :=
  let S := s.data.dropWhile isStrWhiteSpace
  let sign : Int := match S with
    | '-' :: _ => -1
    | _ => 1
  let S := match S with
    | '-' :: t => t
    | '+' :: t => t
    | _ => S
  let RS : Nat × List Char := match S with
    | '0' :: 'x' :: t => (16, t)
    | '0' :: 'X' :: t => (16, t)
    | _ => (10, S)
  let Z := takeDigits RS.1 RS.2
  if Z.isEmpty then .nan
  else JSNumber.ofInt (sign * ((Z.foldl (fun acc d => acc * RS.1 + d) 0 : Nat) : Int))

/-- The expression `n || d` for a number `n` (`NaN` and zero are falsy). -/
def numOrDefault (n d : JSNumber) : JSNumber :=
  match n with
  | .nan => d
  | .int v => if v = 0 then d else .int v
  | .posInf => .posInf
  | .negInf => .negInf

/-- The duration of line 127: `parseInt(req.params.duration) || 1000`. -/
def loadDuration (param : String) : JSNumber :=
  numOrDefault (parseInt param) (.int 1000)

/-- The payload of lines 135-140, for the duration computed on line 127. -/
def loadPayload (cfg : Config) (duration : JSNumber) : Json :=
  .obj [("message", .str "Load test completed"),
        ("duration", .str (duration.toJSString ++ "ms")),
        ("version", .str cfg.version),
        ("pod", .str cfg.podName)]

/-- The `while` loop of lines 131-133. The readings of `Date.now()` are time values, doubles
that hold an integer; `i` is the index of the reading the next evaluation of the loop
condition takes; the result is the index of the reading at which the condition failed.
`none`: the fuel ran out with the loop still spinning. -/
def busyWait (clock : Nat → Int) (start : Int) (duration : JSNumber) : Nat → Nat → Option Nat
  | 0, _ => none
  | fuel + 1, i =>
    if JSNumber.lt (jsSub (clock i) start) duration then
      busyWait clock start duration fuel (i + 1)
    else some i

/-- Handler of `GET /api/v1/load/:duration`: reading `0` of the clock is `start`, the loop
condition takes readings `1, 2, ...`; the result is the index of the last reading taken and
the payload sent after it. -/
def load (cfg : Config) (param : String) (clock : Nat → Int) (fuel : Nat) :
    Option (Nat × Json) :=
  let duration := loadDuration param
  let start := clock 0
  match busyWait clock start duration fuel 1 with
  | some i => some (i, loadPayload cfg duration)
  | none => none

/-! ## Routing (the `app.use`, `app.get`, `app.post` registrations, Express 4) -/

/-- The byte of an escape `%XX` at the head of the string, and the rest. -/
def readEscape : List Char → Option (Nat × List Char)
  | '%' :: a :: b :: rest =>
    match radixDigit 16 a, radixDigit 16 b with
    | some x, some y => some (16 * x + y, rest)
    | _, _ => none
  | _ => none

/-- The next `n` escapes, each a continuation byte `10xxxxxx`, and the rest. -/
def readContinuation : Nat → List Char → Option (List Nat × List Char)
  | 0, cs => some ([], cs)
  | n + 1, cs =>
    match readEscape cs with
    | some (b, rest) =>
      if 0x80 ≤ b ∧ b < 0xC0 then
        (readContinuation n rest).map (fun r => (b :: r.1, r.2))
      else none
    | none => none

/-- Whether `cp` is a code point that UTF-8 encodes in `n` bytes (no overlong form, no
surrogate, at most `0x10FFFF`). -/
def validCodePoint (n cp : Nat) : Bool :=
  (n == 2 && 0x80 ≤ cp && cp < 0x800) ||
  (n == 3 && 0x800 ≤ cp && cp < 0x10000 && !(0xD800 ≤ cp && cp < 0xE000)) ||
  (n == 4 && 0x10000 ≤ cp && cp < 0x110000)

/-- The loop of ECMAScript `Decode` with an empty set of preserved escapes; the fuel bounds
the number of characters left. -/
def decodeChars : Nat → List Char → Option (List Char)
  | _, [] => some []
  | 0, _ :: _ => none
  | fuel + 1, c :: cs =>
    if c != '%' then (decodeChars fuel cs).map (fun r => c :: r)
    else
      match readEscape (c :: cs) with
      | none => none
      | some (b, rest) =>
        if b < 0x80 then (decodeChars fuel rest).map (fun r => Char.ofNat b :: r)
        else
          let n := if b < 0xC0 then 0 else if b < 0xE0 then 2 else if b < 0xF0 then 3
            else if b < 0xF8 then 4 else 0
          let lead := if n = 2 then 0xC0 else if n = 3 then 0xE0 else 0xF0
          if n = 0 then none
          else
            match readContinuation (n - 1) rest with
            | none => none
            | some (bs, rest') =>
              let cp := bs.foldl (fun acc x => acc * 64 + (x - 0x80)) (b - lead)
              if validCodePoint n cp then
                (decodeChars fuel rest').map (fun r => Char.ofNat cp :: r)
              else none

/-- The function `decodeURIComponent`; `none` when it throws a `URIError`. -/
def decodeURIComponent (s : String) : Option String :=
  (decodeChars s.data.length s.data).map String.mk

/-- HTTP request methods. -/
inductive Method where
  | GET | HEAD | POST | PUT | DELETE | PATCH | OPTIONS
  deriving DecidableEq, Repr

/-- A request as the middleware and the router see it. The path is the list of its raw
(still percent-encoded) segments: `/api/v1/load/500` is `["api", "v1", "load", "500"]`, `/` is
`[]`; the one trailing slash that non-strict routing ignores is left out. `bodyError` is the
status of the error `express.json()` raises on the body of the request (400 for malformed
JSON), `none` when it hands the request on. -/
structure Request where
  method : Method
  path : List String
  headers : StrMap
  bodyError : Option Nat

/-- A segment of a route path: a literal, or a named parameter such as `:duration`. -/
inductive Seg where
  | lit (s : String)
  | param (name : String)

/-- A route path: segments, or the wildcard `'*'`. -/
inductive Pattern where
  | segs (l : List Seg)
  | star

/-- What matching one registration's path against the request path gives: the parameters,
no match, or the `URIError` of a parameter that does not decode. -/
inductive LayerMatch where
  | hit (params : StrMap)
  | miss
  | error
  deriving DecidableEq, Repr

/-- Lower-casing, for the case-insensitive comparison of literal segments. -/
def lower (s : String) : String :=
  ⟨s.data.map Char.toLower⟩

/-- Matching of a segment path: literals are compared ignoring case, a parameter takes one
non-empty segment, which is decoded once the whole path has matched. -/
def matchSegs : List Seg → List String → LayerMatch
  | [], [] => .hit []
  | .lit s :: ps, x :: xs => if lower x == lower s then matchSegs ps xs else .miss
  | .param n :: ps, x :: xs =>
    if x != "" then
      match matchSegs ps xs with
      | .hit m =>
        match decodeURIComponent x with
        | some v => .hit ((n, v) :: m)
        | none => .error
      | r => r
    else .miss
  | _, _ => .miss

/-- Matching of a route path against a request path. The wildcard matches every path and
decodes the whole of it (its own parameter `0`, which no handler reads, is left out). -/
def matchPattern : Pattern → List String → LayerMatch
  | .segs l, p => matchSegs l p
  | .star, p => if p.all (fun x => (decodeURIComponent x).isSome) then .hit [] else .error

/-- The handlers of the file. -/
inductive Handler where
  | health | liveness | readiness | experimentVersion | experimentProcess
  | experimentMetrics | load | fallback
  deriving DecidableEq, Repr

/-- One registration `app.METHOD(path, handler)`. -/
structure RouteEntry where
  method : Method
  pattern : Pattern
  handler : Handler

/-- The seven routes with a fixed path, in registration order. -/
def definedRoutes : List RouteEntry :=
  [ ⟨.GET, .segs [.lit "health"], .health⟩,
    ⟨.GET, .segs [.lit "liveness"], .liveness⟩,
    ⟨.GET, .segs [.lit "readiness"], .readiness⟩,
    ⟨.GET, .segs [.lit "api", .lit "v1", .lit "experiment", .lit "version"], .experimentVersion⟩,
    ⟨.POST, .segs [.lit "api", .lit "v1", .lit "experiment", .lit "process"], .experimentProcess⟩,
    ⟨.GET, .segs [.lit "api", .lit "v1", .lit "experiment", .lit "metrics"], .experimentMetrics⟩,
    ⟨.GET, .segs [.lit "api", .lit "v1", .lit "load", .param "duration"], .load⟩ ]

/-- The registration `app.get('*', ...)` of line 144. -/
def catchAll : RouteEntry :=
  ⟨.GET, .star, .fallback⟩

/-- All registrations, in order. -/
def routes : List RouteEntry :=
  definedRoutes ++ [catchAll]

/-- Whether a route registered for method `r` serves a request of method `m`: the same
method, and `HEAD` is served by a `GET` route. -/
def methodServes (r m : Method) : Bool :=
  r == m || (r == .GET && m == .HEAD)

/-- Outcome of the router: the handler that runs with `req.params`, no registration for the
request, or a pending `URIError`. -/
inductive Dispatch where
  | handled (h : Handler) (params : StrMap)
  | notFound
  | badRequest
  deriving DecidableEq, Repr

/-- The router's walk over the registrations: the path is matched first, a `URIError` is
held (`pending`) and no later route matches with it, then the method is looked at. -/
def findRoute : List RouteEntry → Bool → Request → Dispatch
  | [], pending, _ => if pending then .badRequest else .notFound
  | e :: es, pending, req =>
    match matchPattern e.pattern req.path with
    | .error => findRoute es true req
    | .miss => findRoute es pending req
    | .hit params =>
      if pending then findRoute es pending req
      else if methodServes e.method req.method then .handled e.handler params
      else findRoute es pending req

/-- The payload handler `h` passes to `res.json` (for the load handler: once its loop has
ended). `req.params.duration` is read as a string, `undefined` giving `"undefined"`. -/
def runHandler (cfg : Config) (now : String) (h : Handler) (params headers : StrMap) : Json :=
  match h with
  | .health => health cfg now
  | .liveness => liveness cfg
  | .readiness => readiness cfg
  | .experimentVersion => experimentVersion cfg now headers
  | .experimentProcess => experimentProcess cfg now headers
  | .experimentMetrics => experimentMetrics cfg now
  | .load => loadPayload cfg (loadDuration ((params.read "duration").getD "undefined"))
  | .fallback => fallback cfg

/-- Status of an answer and the payload handed to `res.json` (which the transport leaves out
of the answer to a `HEAD` request); `body` is `none` for an answer no handler of the file
wrote. -/
structure Response where
  status : Nat
  body : Option Json

/-- The answer to a request, `none` when there is none. In order: `cors()` ends an `OPTIONS`
request with 204; `express.json()` answers a body it cannot read with its error status; a
matched handler answers through `res.json` (status 200), the load handler only when its
duration is not `Infinity`, for its loop never ends otherwise; a pending `URIError` is
answered with 400 and a request without a registration with 404. -/
def respond (cfg : Config) (now : String) (req : Request) : Option Response :=
  if req.method = .OPTIONS then some ⟨204, none⟩
  else
    match req.bodyError with
    | some status => some ⟨status, none⟩
    | none =>
      match findRoute routes false req with
      | .handled h params =>
        if h = .load ∧ loadDuration ((params.read "duration").getD "undefined") = .posInf then
          none
        else some ⟨200, some (runHandler cfg now h params req.headers)⟩
      | .notFound => some ⟨404, none⟩
      | .badRequest => some ⟨400, none⟩

/-! ## Helper lemmas -/

theorem strictEq_eq_true_iff (x : Option String) (lit : String) :
    strictEq x lit = true ↔ x = some lit := by
  cases x <;> simp [strictEq]

theorem strictEq_eq_false_iff (x : Option String) (lit : String) :
    strictEq x lit = false ↔ x ≠ some lit := by
  cases x <;> simp [strictEq]

theorem truthy_eq_true_iff (x : Option String) :
    truthy x = true ↔ ∃ s, x = some s ∧ s ≠ "" := by
  cases x <;> simp [truthy]

/-! ## The experiment endpoints -/

/-- C1: the process handler answers with the ENHANCED_ALGORITHM payload (three feature flags
true, responseTime "85ms") exactly when `experimentEnabled` holds and the trigger header
carries the token, and with the STANDARD_ALGORITHM payload (three flags false, "120ms")
exactly in every other case. -/
theorem process_enhanced_iff_trigger (cfg : Config) (now : String) (headers : StrMap) :
    (((experimentProcess cfg now headers).getStr? "processingMethod" = some "ENHANCED_ALGORITHM" ∧
      (experimentProcess cfg now headers).getBoolIn? "features" "advancedValidation" = some true ∧
      (experimentProcess cfg now headers).getBoolIn? "features" "realTimeProcessing" = some true ∧
      (experimentProcess cfg now headers).getBoolIn? "features" "enhancedSecurity" = some true ∧
      (experimentProcess cfg now headers).getStr? "responseTime" = some "85ms")
      ↔ (cfg.experimentEnabled = true ∧
          headers.read "aws-cf-cd-super-svp-9f8b7a6d" =
            some "123e4567-e89b-12d3-a456-42661417400")) ∧
    (((experimentProcess cfg now headers).getStr? "processingMethod" = some "STANDARD_ALGORITHM" ∧
      (experimentProcess cfg now headers).getBoolIn? "features" "advancedValidation" = some false ∧
      (experimentProcess cfg now headers).getBoolIn? "features" "realTimeProcessing" = some false ∧
      (experimentProcess cfg now headers).getBoolIn? "features" "enhancedSecurity" = some false ∧
      (experimentProcess cfg now headers).getStr? "responseTime" = some "120ms")
      ↔ ¬ (cfg.experimentEnabled = true ∧
          headers.read "aws-cf-cd-super-svp-9f8b7a6d" =
            some "123e4567-e89b-12d3-a456-42661417400")) := by
  by_cases h : cfg.experimentEnabled = true ∧
      headers.read "aws-cf-cd-super-svp-9f8b7a6d" = some "123e4567-e89b-12d3-a456-42661417400"
  · have hc : (cfg.experimentEnabled &&
        strictEq (headers.read experimentHeaderName) experimentToken) = true := by
      simp [h.1, strictEq_eq_true_iff, experimentHeaderName, experimentToken, h.2]
    simp only [experimentProcess, hc]
    simp [h, Json.getStr?, Json.getBoolIn?, Json.getBool?, Json.get?, List.lookup]
  · have hc : (cfg.experimentEnabled &&
        strictEq (headers.read experimentHeaderName) experimentToken) = false := by
      rw [Bool.and_eq_false_iff, strictEq_eq_false_iff]
      by_cases he : cfg.experimentEnabled = true
      · right
        intro hx
        exact h ⟨he, hx⟩
      · left
        simpa using he
    simp only [experimentProcess, hc]
    simp [h, Json.getStr?, Json.getBoolIn?, Json.getBool?, Json.get?, List.lookup]

/-- C2: whatever the configuration, `isExperimentalTraffic` of the version payload is true
exactly when the trigger header is present with the 35-character token as its value, and
false for every other value and for an absent header. -/
theorem version_isExperimentalTraffic_iff (cfg : Config) (now : String) (headers : StrMap) :
    ((experimentVersion cfg now headers).getBool? "isExperimentalTraffic" = some true
      ↔ headers.read "aws-cf-cd-super-svp-9f8b7a6d" =
          some "123e4567-e89b-12d3-a456-42661417400") ∧
    ((experimentVersion cfg now headers).getBool? "isExperimentalTraffic" = some false
      ↔ headers.read "aws-cf-cd-super-svp-9f8b7a6d" ≠
          some "123e4567-e89b-12d3-a456-42661417400") ∧
    String.length "123e4567-e89b-12d3-a456-42661417400" = 35 := by
  refine ⟨?_, ?_, by decide⟩
  · simp [experimentVersion, Json.getBool?, Json.get?, List.lookup, strictEq_eq_true_iff,
      experimentHeaderName, experimentToken]
  · simp [experimentVersion, Json.getBool?, Json.get?, List.lookup, strictEq_eq_false_iff,
      experimentHeaderName, experimentToken]

/-- C3: at a request whose header map holds the trigger key with the empty string as value,
the key is present and the version payload reports `experimentHeaderPresent = false`; in
general the field is true exactly when the key is present with a non-empty value. -/
theorem version_headerPresent_false_on_empty_value (cfg : Config) (now : String)
    (headers : StrMap) :
    (StrMap.read [("aws-cf-cd-super-svp-9f8b7a6d", "")]
        "aws-cf-cd-super-svp-9f8b7a6d").isSome = true ∧
    (experimentVersion cfg now [("aws-cf-cd-super-svp-9f8b7a6d", "")]).getBool?
        "experimentHeaderPresent" = some false ∧
    ((experimentVersion cfg now headers).getBool? "experimentHeaderPresent" = some true
      ↔ ∃ s, headers.read "aws-cf-cd-super-svp-9f8b7a6d" = some s ∧ s ≠ "") := by
  refine ⟨by decide, ?_, ?_⟩
  · simp [experimentVersion, Json.getBool?, Json.get?, List.lookup, StrMap.read, truthy,
      experimentHeaderName]
  · simp [experimentVersion, Json.getBool?, Json.get?, List.lookup, truthy_eq_true_iff,
      experimentHeaderName]

/-- C4: the advisory fields `headers['x-experiment-version']` and `headers['x-pod-type']` of
the version payload are the same for any two header maps and are "true"/"experimental" or
"false"/"stable" according to `experimentEnabled` alone; with `experimentEnabled = false`
and the matching token sent they read "false"/"stable" while `isExperimentalTraffic` is
true. -/
theorem version_advisory_fields_config_only (cfg : Config) (now₁ now₂ : String)
    (h₁ h₂ : StrMap) :
    (experimentVersion cfg now₁ h₁).get? "headers" =
      (experimentVersion cfg now₂ h₂).get? "headers" ∧
    (experimentVersion cfg now₁ h₁).getStrIn? "headers" "x-experiment-version" =
      some (if cfg.experimentEnabled = true then "true" else "false") ∧
    (experimentVersion cfg now₁ h₁).getStrIn? "headers" "x-pod-type" =
      some (if cfg.experimentEnabled = true then "experimental" else "stable") ∧
    (experimentVersion ⟨cfg.version, false, cfg.podName⟩ now₁
        [("aws-cf-cd-super-svp-9f8b7a6d", "123e4567-e89b-12d3-a456-42661417400")]).getBool?
        "isExperimentalTraffic" = some true ∧
    (experimentVersion ⟨cfg.version, false, cfg.podName⟩ now₁
        [("aws-cf-cd-super-svp-9f8b7a6d", "123e4567-e89b-12d3-a456-42661417400")]).getStrIn?
        "headers" "x-pod-type" = some "stable" ∧
    (experimentVersion ⟨cfg.version, false, cfg.podName⟩ now₁
        [("aws-cf-cd-super-svp-9f8b7a6d", "123e4567-e89b-12d3-a456-42661417400")]).getStrIn?
        "headers" "x-experiment-version" = some "false" := by
  refine ⟨?_, ?_, ?_, ?_, ?_, ?_⟩ <;>
    simp [experimentVersion, Json.getStrIn?, Json.getStr?, Json.getBool?, Json.get?,
      List.lookup, StrMap.read, strictEq, experimentHeaderName, experimentToken]

/-- C10: the process handler answers with the ENHANCED_ALGORITHM payload exactly when the
version handler, on the same configuration and headers, reports `experimentEnabled = true`
and `isExperimentalTraffic = true`; and a version payload with `isExperimentalTraffic = true`
has `experimentHeaderPresent = true`. -/
theorem process_agrees_with_version (cfg : Config) (now now' : String) (headers : StrMap) :
    ((experimentProcess cfg now headers).getStr? "processingMethod" = some "ENHANCED_ALGORITHM"
      ↔ ((experimentVersion cfg now' headers).getBool? "experimentEnabled" = some true ∧
         (experimentVersion cfg now' headers).getBool? "isExperimentalTraffic" = some true)) ∧
    ((experimentVersion cfg now' headers).getBool? "isExperimentalTraffic" = some true →
      (experimentVersion cfg now' headers).getBool? "experimentHeaderPresent" = some true) := by
  constructor
  · cases hc : (cfg.experimentEnabled &&
        strictEq (headers.read experimentHeaderName) experimentToken)
    · have hc' := hc
      rw [Bool.and_eq_false_iff] at hc'
      simp only [experimentProcess, experimentVersion, hc]
      rcases hc' with h | h <;>
        simp [h, Json.getStr?, Json.getBool?, Json.get?, List.lookup]
    · have hc' := hc
      rw [Bool.and_eq_true] at hc'
      simp only [experimentProcess, experimentVersion, hc]
      simp [hc'.1, hc'.2, Json.getStr?, Json.getBool?, Json.get?, List.lookup]
  · intro h
    have hx : headers.read experimentHeaderName = some experimentToken := by
      simpa [experimentVersion, Json.getBool?, Json.get?, List.lookup,
        strictEq_eq_true_iff] using h
    simp [experimentVersion, Json.getBool?, Json.get?, List.lookup, hx, truthy,
      experimentToken]

/-! ## Configuration -/

/-- C8: the configured `experimentEnabled` flag is true exactly when the raw
`EXPERIMENT_ENABLED` value is the string "true" (unset, "TRUE", "1" and " true" give false),
and the health, experiment-version and metrics payloads report this flag. -/
theorem experimentEnabled_iff_literal_true (env : StrMap) (now : String) (headers : StrMap) :
    ((loadConfig env).experimentEnabled = true ↔ env.read "EXPERIMENT_ENABLED" = some "true") ∧
    (loadConfig []).experimentEnabled = false ∧
    (loadConfig [("EXPERIMENT_ENABLED", "TRUE")]).experimentEnabled = false ∧
    (loadConfig [("EXPERIMENT_ENABLED", "1")]).experimentEnabled = false ∧
    (loadConfig [("EXPERIMENT_ENABLED", " true")]).experimentEnabled = false ∧
    (health (loadConfig env) now).getBool? "experimentEnabled" =
      some (loadConfig env).experimentEnabled ∧
    (experimentVersion (loadConfig env) now headers).getBool? "experimentEnabled" =
      some (loadConfig env).experimentEnabled ∧
    (experimentMetrics (loadConfig env) now).getBool? "experimentEnabled" =
      some (loadConfig env).experimentEnabled := by
  refine ⟨?_, by decide, by decide, by decide, by decide, ?_, ?_, ?_⟩
  · simp [loadConfig, EXPERIMENT_ENABLED, strictEq_eq_true_iff]
  · simp [health, Json.getBool?, Json.get?, List.lookup]
  · simp [experimentVersion, Json.getBool?, Json.get?, List.lookup]
  · simp [experimentMetrics, Json.getBool?, Json.get?, List.lookup]

/-! ## Identity fields of the payloads -/

theorem experimentProcess_version (cfg : Config) (now : String) (headers : StrMap) :
    (experimentProcess cfg now headers).getStr? "version" = some cfg.version := by
  cases hc : (cfg.experimentEnabled &&
      strictEq (headers.read experimentHeaderName) experimentToken) <;>
    simp only [experimentProcess, hc] <;>
    simp [Json.getStr?, Json.get?, List.lookup]

theorem experimentProcess_pod (cfg : Config) (now : String) (headers : StrMap) :
    (experimentProcess cfg now headers).getStr? "pod" = some cfg.podName := by
  cases hc : (cfg.experimentEnabled &&
      strictEq (headers.read experimentHeaderName) experimentToken) <;>
    simp only [experimentProcess, hc] <;>
    simp [Json.getStr?, Json.get?, List.lookup]

/-- C5 (as stated, refuted): the liveness and readiness payloads of a concrete configuration
have no `pod` field. -/
theorem liveness_readiness_payload_without_pod :
    (runHandler ⟨"stable", false, "unknown"⟩ "2024-01-01T00:00:00.000Z" .liveness [] []).hasField
        "pod" = false ∧
    (runHandler ⟨"stable", false, "unknown"⟩ "2024-01-01T00:00:00.000Z" .readiness [] []).hasField
        "pod" = false ∧
    (runHandler ⟨"stable", false, "unknown"⟩ "2024-01-01T00:00:00.000Z" .liveness [] []).getStr?
        "pod" ≠ some "unknown" := by
  decide

/-- C5 (amended): every payload of every handler has a `version` field equal to the
configured version; its `pod` field equals the configured pod name for every handler other
than liveness and readiness, whose payloads have no `pod` field. -/
theorem payload_version_and_pod (h : Handler) (cfg : Config) (now : String)
    (params headers : StrMap) :
    (runHandler cfg now h params headers).getStr? "version" = some cfg.version ∧
    (runHandler cfg now h params headers).getStr? "pod" =
      (if h = .liveness ∨ h = .readiness then none else some cfg.podName) := by
  cases h
  case experimentProcess =>
    exact ⟨experimentProcess_version cfg now headers, by
      simpa [runHandler] using experimentProcess_pod cfg now headers⟩
  all_goals
    simp [runHandler, health, liveness, readiness, experimentVersion, experimentMetrics,
      loadPayload, fallback, Json.getStr?, Json.get?, List.lookup]


/-! ## The load endpoint -/

theorem roundToDouble_of_lt (m : Nat) (h : m < 2 ^ 53) : roundToDouble m = some m := by
  unfold roundToDouble
  rw [if_pos h]

theorem jsSub_exact (a b : Int) (h₀ : 0 ≤ a - b) (h₁ : a - b < 2 ^ 53) :
    jsSub a b = .int (a - b) := by
  have hn : (a - b).natAbs < 2 ^ 53 := by omega
  have hz : ¬ (a - b < 0) := by omega
  have hc : ((a - b).natAbs : Int) = a - b := Int.natAbs_of_nonneg h₀
  simp [jsSub, JSNumber.ofInt, roundToDouble_of_lt _ hn, hz, hc]

theorem loadDuration_ne_nan (param : String) : loadDuration param ≠ .nan := by
  unfold loadDuration numOrDefault
  split
  · simp
  · split <;> simp
  · simp
  · simp

theorem lt_int_false_iff_le (x : Int) (d : JSNumber) (hd : d ≠ .nan) :
    JSNumber.lt (.int x) d = false ↔ JSNumber.le d (.int x) = true := by
  cases d <;> simp_all [JSNumber.lt, JSNumber.le]

theorem le_int_mono (d : JSNumber) (x y : Int) (hxy : x ≤ y)
    (h : JSNumber.le d (.int x) = true) : JSNumber.le d (.int y) = true := by
  cases d <;> simp_all [JSNumber.lt, JSNumber.le]
  omega

/-- C6: the parameter "0" parses to the integer 0, yet the duration used and reported is the
default: the payload says "1000ms" and equals the payload for "1000" (as does the payload
for "abc", which does not parse). In general the duration is the parsed number when that
is neither zero nor `NaN`, and 1000 when the parameter does not parse or parses to zero. -/
theorem load_zero_takes_default (cfg : Config) :
    parseInt "0" = .int 0 ∧
    loadDuration "0" = .int 1000 ∧
    (loadPayload cfg (loadDuration "0")).getStr? "duration" = some "1000ms" ∧
    loadPayload cfg (loadDuration "0") = loadPayload cfg (loadDuration "1000") ∧
    parseInt "abc" = .nan ∧
    loadPayload cfg (loadDuration "abc") = loadPayload cfg (loadDuration "1000") ∧
    (∀ param n, parseInt param = .int n → n ≠ 0 → loadDuration param = .int n) ∧
    (∀ param, parseInt param = .posInf ∨ parseInt param = .negInf →
      loadDuration param = parseInt param) ∧
    (∀ param, parseInt param = .nan ∨ parseInt param = .int 0 →
      loadDuration param = .int 1000) := by
  have h0 : loadDuration "0" = .int 1000 := by decide
  have h1 : loadDuration "1000" = .int 1000 := by decide
  have h2 : loadDuration "abc" = .int 1000 := by decide
  have hs : (JSNumber.int 1000).toJSString ++ "ms" = "1000ms" := by decide
  refine ⟨by decide, h0, ?_, by rw [h0, h1], by decide, by rw [h2, h1], ?_, ?_, ?_⟩
  · rw [h0]
    simp [loadPayload, Json.getStr?, Json.get?, List.lookup, hs]
  · intro param n hp hn
    simp [loadDuration, numOrDefault, hp, hn]
  · intro param hp
    rcases hp with hp | hp <;> simp [loadDuration, numOrDefault, hp]
  · intro param hp
    rcases hp with hp | hp <;> simp [loadDuration, numOrDefault, hp]

/-- The model of line 127 and of the template literal of line 137 on large parameters: the
parse rounds to the nearest double, the string switches to exponent notation at `1e21`, and a
parameter past the largest double gives `Infinity`. -/
theorem loadDuration_large_parameters :
    parseInt "9007199254740993" = .int 9007199254740992 ∧
    (loadDuration "100000000000000000000000").toJSString ++ "ms" = "1e+23ms" ∧
    (loadDuration "18446744073709551616").toJSString = "18446744073709552000" ∧
    loadDuration (String.mk (List.replicate 400 '1')) = .posInf ∧
    (loadDuration (String.mk (List.replicate 400 '1'))).toJSString ++ "ms" = "Infinityms" := by
  decide!

theorem busyWait_some_spec (clock : Nat → Int) (start : Int) (duration : JSNumber) :
    ∀ (fuel i r : Nat), busyWait clock start duration fuel i = some r →
      i ≤ r ∧ JSNumber.lt (jsSub (clock r) start) duration = false ∧
      ∀ j, i ≤ j → j < r → JSNumber.lt (jsSub (clock j) start) duration = true := by
  intro fuel
  induction fuel with
  | zero => intro i r h; simp [busyWait] at h
  | succ n ih =>
    intro i r h
    rw [busyWait] at h
    split at h
    · next hlt =>
      obtain ⟨h1, h2, h3⟩ := ih (i + 1) r h
      refine ⟨by omega, h2, ?_⟩
      intro j hij hjr
      rcases Nat.eq_or_lt_of_le hij with heq | hlt'
      · subst heq; exact hlt
      · exact h3 j hlt' hjr
    · next hge =>
      have hr : i = r := by simpa using h
      subst hr
      exact ⟨le_refl _, by simpa using hge, fun j h1 h2 => absurd h1 (by omega)⟩

theorem busyWait_of_reach (clock : Nat → Int) (start : Int) (duration : JSNumber) :
    ∀ (n i k : Nat), k = i + n → JSNumber.lt (jsSub (clock k) start) duration = false →
      ∃ r, busyWait clock start duration (n + 1) i = some r := by
  intro n
  induction n with
  | zero =>
    intro i k hk hd
    have hki : k = i := by omega
    subst hki
    refine ⟨k, ?_⟩
    rw [busyWait, if_neg (by simp [hd])]
  | succ m ih =>
    intro i k hk hd
    rw [busyWait]
    split
    · exact ih (i + 1) k (by omega) hd
    · exact ⟨i, rfl⟩

theorem busyWait_result_unique (clock : Nat → Int) (start : Int) (duration : JSNumber)
    (f₁ f₂ i r₁ r₂ : Nat)
    (h₁ : busyWait clock start duration f₁ i = some r₁)
    (h₂ : busyWait clock start duration f₂ i = some r₂) : r₁ = r₂ := by
  obtain ⟨a1, a2, a3⟩ := busyWait_some_spec clock start duration f₁ i r₁ h₁
  obtain ⟨b1, b2, b3⟩ := busyWait_some_spec clock start duration f₂ i r₂ h₂
  rcases Nat.lt_trichotomy r₁ r₂ with h | h | h
  · have := b3 r₁ a1 h
    rw [a2] at this
    exact absurd this (by simp)
  · exact h
  · have := a3 r₂ b1 h
    rw [b2] at this
    exact absurd this (by simp)

/-- C9: for a non-decreasing clock of time values (non-negative integers below `2 ^ 53`, which
a double holds and subtracts exactly) that reaches `start + duration`, the busy-wait of the
load handler ends: with enough fuel the handler returns, at a reading `i ≥ 1` whose elapsed
time `clock i - clock 0` is at least the duration, every earlier reading of the loop being
below it; every run that returns does so at that reading, never at a reading whose elapsed
time is below the duration. The parameter "500" gives duration 500 and the payload field
"500ms". -/
theorem load_busyWait_terminates (cfg : Config) (param : String) (clock : Nat → Int)
    (hclock : ∀ i, 0 ≤ clock i ∧ clock i < 2 ^ 53)
    (hmono : Monotone clock)
    (hreach : ∃ k, JSNumber.le (loadDuration param) (.int (clock k - clock 0)) = true) :
    (∃ fuel i, load cfg param clock fuel = some (i, loadPayload cfg (loadDuration param)) ∧
      1 ≤ i ∧
      JSNumber.le (loadDuration param) (.int (clock i - clock 0)) = true ∧
      (∀ d : Int, loadDuration param = .int d → d ≤ clock i - clock 0) ∧
      (∀ j, 1 ≤ j → j < i →
        JSNumber.lt (.int (clock j - clock 0)) (loadDuration param) = true) ∧
      (∀ fuel' i' p, load cfg param clock fuel' = some (i', p) →
        i' = i ∧ JSNumber.le (loadDuration param) (.int (clock i' - clock 0)) = true)) ∧
    loadDuration "500" = .int 500 ∧
    (loadPayload cfg (loadDuration "500")).getStr? "duration" = some "500ms" := by
  have hne := loadDuration_ne_nan param
  have hsub : ∀ i, jsSub (clock i) (clock 0) = .int (clock i - clock 0) := by
    intro i
    have h0 : clock 0 ≤ clock i := hmono (Nat.zero_le i)
    have hi := hclock i
    have hz := hclock 0
    exact jsSub_exact _ _ (by omega) (by omega)
  obtain ⟨k, hk⟩ := hreach
  have hstep : clock k ≤ clock (k + 1) := hmono (Nat.le_succ k)
  have hk1 : JSNumber.le (loadDuration param) (.int (clock (k + 1) - clock 0)) = true :=
    le_int_mono _ _ _ (by omega) hk
  have hk2 : JSNumber.lt (jsSub (clock (k + 1)) (clock 0)) (loadDuration param) = false := by
    rw [hsub, lt_int_false_iff_le _ _ hne]
    exact hk1
  obtain ⟨r, hr⟩ := busyWait_of_reach clock (clock 0) (loadDuration param) k 1 (k + 1)
    (by omega) hk2
  obtain ⟨s1, s2, s3⟩ := busyWait_some_spec clock (clock 0) (loadDuration param) (k + 1) 1 r hr
  have hexit : JSNumber.le (loadDuration param) (.int (clock r - clock 0)) = true := by
    rw [hsub, lt_int_false_iff_le _ _ hne] at s2
    exact s2
  refine ⟨⟨k + 1, r, ?_, s1, hexit, ?_, ?_, ?_⟩, by decide, ?_⟩
  · simp [load, hr]
  · intro d hd
    rw [hd] at hexit
    simpa [JSNumber.le, JSNumber.lt] using hexit
  · intro j h1 h2
    have := s3 j h1 h2
    rwa [hsub] at this
  · intro fuel' i' p hrun
    simp only [load] at hrun
    cases hb : busyWait clock (clock 0) (loadDuration param) fuel' 1 with
    | none => simp [hb] at hrun
    | some r' =>
      simp only [hb, Option.some.injEq, Prod.mk.injEq] at hrun
      have hu := busyWait_result_unique clock (clock 0) (loadDuration param) fuel' (k + 1) 1
        r' r hb hr
      have hi : i' = r := by rw [← hrun.1, hu]
      subst hi
      exact ⟨rfl, hexit⟩
  · have h500 : loadDuration "500" = .int 500 := by decide
    have hs : (JSNumber.int 500).toJSString ++ "ms" = "500ms" := by decide
    rw [h500]
    simp [loadPayload, Json.getStr?, Json.get?, List.lookup, hs]

/-- C9, at a concrete input: the parameter "500" on a clock that advances 100 ms per
reading up to 1000 ms. -/
theorem load_busyWait_terminates_witness :
    (∀ i, 0 ≤ (fun n : Nat => ((min (100 * n) 1000 : Nat) : Int)) i ∧
      (fun n : Nat => ((min (100 * n) 1000 : Nat) : Int)) i < 2 ^ 53) ∧
    Monotone (fun n : Nat => ((min (100 * n) 1000 : Nat) : Int)) ∧
    (∃ fuel i, load ⟨"stable", false, "unknown"⟩ "500"
        (fun n : Nat => ((min (100 * n) 1000 : Nat) : Int)) fuel =
        some (i, loadPayload ⟨"stable", false, "unknown"⟩ (loadDuration "500")) ∧
      1 ≤ i ∧
      (∀ d : Int, loadDuration "500" = .int d →
        d ≤ (fun n : Nat => ((min (100 * n) 1000 : Nat) : Int)) i -
          (fun n : Nat => ((min (100 * n) 1000 : Nat) : Int)) 0)) ∧
    (loadPayload ⟨"stable", false, "unknown"⟩ (loadDuration "500")).getStr? "duration" =
      some "500ms" :=
  have hclock : ∀ i, 0 ≤ (fun n : Nat => ((min (100 * n) 1000 : Nat) : Int)) i ∧
      (fun n : Nat => ((min (100 * n) 1000 : Nat) : Int)) i < 2 ^ 53 := by
    intro i
    have : min (100 * i) 1000 ≤ 1000 := Nat.min_le_right _ _
    constructor
    · exact Int.ofNat_nonneg _
    · show ((min (100 * i) 1000 : Nat) : Int) < 2 ^ 53
      have h2 : ((min (100 * i) 1000 : Nat) : Int) ≤ 1000 := by exact_mod_cast this
      have h3 : (1000 : Int) < 2 ^ 53 := by norm_num
      omega
  have hmono : Monotone (fun n : Nat => ((min (100 * n) 1000 : Nat) : Int)) := by
    intro a b hab
    have : min (100 * a) 1000 ≤ min (100 * b) 1000 := by omega
    show ((min (100 * a) 1000 : Nat) : Int) ≤ ((min (100 * b) 1000 : Nat) : Int)
    exact_mod_cast this
  have hreach : ∃ k, JSNumber.le (loadDuration "500")
      (.int ((fun n : Nat => ((min (100 * n) 1000 : Nat) : Int)) k -
        (fun n : Nat => ((min (100 * n) 1000 : Nat) : Int)) 0)) = true := ⟨5, by decide⟩
  have main := load_busyWait_terminates ⟨"stable", false, "unknown"⟩ "500" _ hclock hmono hreach
  ⟨hclock, hmono,
    (let ⟨fuel, i, h1, h2, _, h4, _⟩ := main.1; ⟨fuel, i, h1, h2, h4⟩),
    main.2.2⟩

/-! ## Routing -/

/-- C7: a `POST` request to `/nonexistent/path` matches no registration, the catch-all
included, and is answered with status 404 and no payload, whereas the `GET` request to the
same path is answered with status 200 and the fallback directory of the five documented
entries. -/
theorem post_unknown_path_not_absorbed :
    findRoute routes false ⟨.POST, ["nonexistent", "path"], [], none⟩ = .notFound ∧
    (respond ⟨"stable", false, "unknown"⟩ "2024-01-01T00:00:00.000Z"
      ⟨.POST, ["nonexistent", "path"], [], none⟩).map (fun r => r.status) = some 404 ∧
    ((respond ⟨"stable", false, "unknown"⟩ "2024-01-01T00:00:00.000Z"
      ⟨.POST, ["nonexistent", "path"], [], none⟩).bind (fun r => r.body)).isNone = true ∧
    findRoute routes false ⟨.GET, ["nonexistent", "path"], [], none⟩ = .handled .fallback [] ∧
    (respond ⟨"stable", false, "unknown"⟩ "2024-01-01T00:00:00.000Z"
      ⟨.GET, ["nonexistent", "path"], [], none⟩).map (fun r => r.status) = some 200 ∧
    ((respond ⟨"stable", false, "unknown"⟩ "2024-01-01T00:00:00.000Z"
      ⟨.GET, ["nonexistent", "path"], [], none⟩).bind (fun r => r.body)).bind
        (fun j => j.getStrs? "availableEndpoints") =
      some ["GET /health",
            "GET /api/v1/experiment/version",
            "POST /api/v1/experiment/process",
            "GET /api/v1/experiment/metrics",
            "GET /api/v1/load/:duration"] := by
  decide

end DemoMicroservice
